import Mathlib

/-!
Verification development for the Open/R routing control-plane core:
the netlink route encoder (`openr/nl/NetlinkRoute.cpp`), the FIB
reconciler (`openr/fib/Fib.cpp`) and the persistent key/value store
(`openr/config-store/PersistentStore.cpp`), shallowly embedded in Lean.
Helper components whose sources are not part of the repository snapshot
(the netlink message buffer, best-nexthop selection, the route delta
engine and the exponential backoff) are modelled from the specification
and marked as such in their doc comments.
-/

namespace OpenR

/-! ## Common: exponential backoff -/

/-- Modelled from the spec: `ExpBackoff(initial, max)` (§4.4); the source
file `openr/common/ExponentialBackoff.h` is not part of the snapshot.
`currentMs = 0` means no error backoff is active. -/
structure ExpBackoff where
  initialMs : Nat
  maxMs : Nat
  currentMs : Nat
  deriving DecidableEq, Repr

/-- Modelled from the spec: on error the retry interval starts at
`initialMs` and doubles, capped at `maxMs`. -/
def ExpBackoff.reportError (b : ExpBackoff) : ExpBackoff :=
  { b with currentMs := min (if b.currentMs = 0 then b.initialMs else 2 * b.currentMs) b.maxMs }

/-- Modelled from the spec: success resets the backoff. -/
def ExpBackoff.reportSuccess (b : ExpBackoff) : ExpBackoff :=
  { b with currentMs := 0 }

/-- Modelled from the spec: time until the next retry is allowed;
wall-clock time is abstracted away, so this is the current interval. -/
def ExpBackoff.getTimeRemainingUntilRetry (b : ExpBackoff) : Nat :=
  b.currentMs

/-! ## Common: association-list maps (for `std::unordered_map`) -/

/-- Lookup in an association list (model of `std::unordered_map::find`). -/
def assocLookup {α : Type} (m : List (String × α)) (k : String) : Option α :=
  (m.find? (fun p => p.1 == k)).map (fun p => p.2)

/-- Insert-or-assign in an association list (model of `map[k] = v`). -/
def assocSet {α : Type} : List (String × α) → String → α → List (String × α)
  | [], k, v => [(k, v)]
  | (k', v') :: rest, k, v =>
    if k' == k then (k, v) :: rest else (k', v') :: assocSet rest k v

/-- Erase a key; returns the new map and whether the key was present
(model of `map.erase(k) > 0`). -/
def assocErase {α : Type} : List (String × α) → String → List (String × α) × Bool
  | [], _ => ([], false)
  | (k', v') :: rest, k =>
    if k' == k then (rest, true)
    else
      let (m, found) := assocErase rest k
      ((k', v') :: m, found)

namespace Netlink

/-! ## Netlink constants (from linux uapi headers used by NetlinkRoute.cpp) -/

def AF_INET : Nat := 2
def AF_INET6 : Nat := 10
def AF_MPLS : Nat := 28
def RTN_MULTICAST : Nat := 5
def RT_SCOPE_LINK : Nat := 253
def RTA_OIF : Nat := 4
def RTA_GATEWAY : Nat := 5
def RTA_MULTIPATH : Nat := 8
def RTA_VIA : Nat := 18
def RTA_NEWDST : Nat := 19
def RTA_ENCAP_TYPE : Nat := 21
def RTA_ENCAP : Nat := 22
def MPLS_IPTUNNEL_DST : Nat := 1
def LWTUNNEL_ENCAP_MPLS : Nat := 1
def kLabelShift : Nat := 12
def kLabelBosShift : Nat := 8

/-- `ResultCode` of the netlink message builder. -/
inductive ResultCode where
  | SUCCESS
  | NO_MESSAGE_BUFFER
  | NO_NEXTHOP_IP
  | NO_LABEL
  | NO_LOOPBACK_INDEX
  | UNKNOWN_LABEL_ACTION
  | INVALID_ADDRESS_FAMILY
  deriving DecidableEq, Repr

/-- `thrift::MplsActionCode`. -/
inductive MplsActionCode where
  | PUSH
  | SWAP
  | PHP
  | POP_AND_LOOKUP
  deriving DecidableEq, Repr

/-- Payload of one netlink TLV sub-attribute.  Encoded 32-bit MPLS
label entries are kept as 32-bit naturals (`struct mpls_label.entry`)
rather than raw bytes; addresses are byte lists. -/
inductive Payload where
  | bytes (bs : List Nat)
  | labelEntries (es : List Nat)
  | u16 (v : Nat)
  | u32 (v : Nat)
  | via (family : Nat) (addr : List Nat)
  | empty
  deriving DecidableEq, Repr

/-- Byte size of a payload as the C code computes it:
`mpls_label` entries are 4 bytes each, `RTA_VIA` uses
`sizeof(nextHopV4)=5` for `AF_INET` and `sizeof(nextHop)=17` otherwise. -/
def payloadSize : Payload → Nat
  | .bytes bs => bs.length
  | .labelEntries es => 4 * es.length
  | .u16 _ => 2
  | .u32 _ => 4
  | .via f _ => if f = AF_INET then 5 else 17
  | .empty => 0

/-- One TLV sub-attribute: `struct rtattr` type plus payload. -/
structure SubAttr where
  rtaType : Nat
  payload : Payload
  deriving DecidableEq, Repr

/-- `RTA_ALIGN`: round up to a multiple of 4. -/
def align4 (n : Nat) : Nat := (n + 3) / 4 * 4

/-- The fixed-size attribute buffer of the netlink message builder:
capacity, the running `rta_len` of the container, and the emitted
sub-attributes in order. -/
structure RtaBuf where
  cap : Nat
  len : Nat
  attrs : List SubAttr
  deriving DecidableEq, Repr

/-- A fresh buffer of the given capacity.  `len` starts at
`RTA_LENGTH(0) = 4`, the container attribute header. -/
def freshBuf (cap : Nat) : RtaBuf := { cap := cap, len := 4, attrs := [] }

/-- Modelled from the spec: the netlink message buffer (§4.1 C1) owns a
fixed-size buffer and appends TLV attributes with 4-byte (NLA)
alignment, failing with `nullptr` (here `none`) when the buffer is
exhausted; the source `openr/nl/NetlinkMessage.cpp` is not part of the
snapshot. -/
def addSubAttributes (buf : RtaBuf) (ty : Nat) (p : Payload) : Option RtaBuf :=
  let newLen := align4 buf.len + align4 (4 + payloadSize p)
  if newLen > buf.cap then none
  else some { buf with len := newLen, attrs := buf.attrs ++ [⟨ty, p⟩] }

/-- `NetlinkRouteMessage::encodeLabel`: clamp an out-of-range label to
zero (with a logged error), pack it as `htonl(label << 12)` and OR in
`htonl(1 << 8)` when bottom-of-stack. -/
def htonl (x : Nat) : Nat :=
  x % 256 * 16777216 + x / 256 % 256 * 65536 + x / 65536 % 256 * 256 + x / 16777216 % 256

def encodeLabel (label : Nat) (bos : Bool) : Nat :=
  let label := if label > 0xFFFFF then 0 else label
  let encoded := htonl ((label <<< kLabelShift) % 4294967296)
  if bos then encoded ||| htonl (1 <<< kLabelBosShift) else encoded

/-- `openr::fbnl::NextHop` as used by the encoder. -/
structure NextHop where
  ifIndex : Option Nat
  gateway : Option (List Nat)
  family : Nat
  labelAction : Option MplsActionCode
  swapLabel : Option Nat
  pushLabels : Option (List Nat)
  weight : Nat
  deriving DecidableEq, Repr

/-- `openr::fbnl::Route` as used by the encoder. -/
structure Route where
  family : Nat
  rtype : Nat
  scope : Nat
  destBytes : List Nat
  prefixLen : Nat
  mplsLabel : Option Nat
  protocolId : Nat
  nextHops : List NextHop
  deriving DecidableEq, Repr

/-- `NetlinkRouteMessage::addIpNexthop`: without a gateway the nexthop
is accepted (no `RTA_GATEWAY`) only for multicast routes or link-scope
routes, otherwise `NO_NEXTHOP_IP`; with a gateway an `RTA_GATEWAY`
sub-attribute is appended.  `none` models the exception thrown by
`path.getIfIndex().value()` on a missing interface index. -/
def addIpNexthop (buf : RtaBuf) (path : NextHop) (route : Route) :
    Option (ResultCode × RtaBuf) :=
  match path.ifIndex with
  | none => none
  | some _ =>
    match path.gateway with
    | none =>
      if route.rtype = RTN_MULTICAST ∨ route.scope = RT_SCOPE_LINK then
        some (ResultCode.SUCCESS, buf)
      else
        some (ResultCode.NO_NEXTHOP_IP, buf)
    | some gw =>
      match addSubAttributes buf RTA_GATEWAY (.bytes gw) with
      | none => some (ResultCode.NO_MESSAGE_BUFFER, buf)
      | some b => some (ResultCode.SUCCESS, b)

/-- `NetlinkRouteMessage::addSwapOrPHPNexthop`: an optional `RTA_NEWDST`
with the swap label (BOS=1) — its absence means PHP — followed by
`RTA_VIA` with the gateway.  `none` models the exceptions thrown by
`.value()` on a missing interface index or gateway. -/
def addSwapOrPHPNexthop (buf : RtaBuf) (path : NextHop) :
    Option (ResultCode × RtaBuf) :=
  match path.ifIndex with
  | none => none
  | some _ =>
    let afterNewDst : Option (Option RtaBuf) :=
      match path.swapLabel with
      | none => some (some buf)
      | some l =>
        match addSubAttributes buf RTA_NEWDST (.labelEntries [encodeLabel l true]) with
        | none => some none
        | some b => some (some b)
    match afterNewDst with
    | none => none
    | some none => some (ResultCode.NO_MESSAGE_BUFFER, buf)
    | some (some b1) =>
      match path.gateway with
      | none => none
      | some gw =>
        match addSubAttributes b1 RTA_VIA (.via path.family gw) with
        | none => some (ResultCode.NO_MESSAGE_BUFFER, b1)
        | some b2 => some (ResultCode.SUCCESS, b2)

/-- The label-entry list built by the loop in
`NetlinkRouteMessage::addLabelNexthop`: index `i` gets
`bos = (i == labels.size() - 1)`. -/
def encodePushLabelsAux (total : Nat) : Nat → List Nat → List Nat
  | _, [] => []
  | i, l :: rest => encodeLabel l (i == total - 1) :: encodePushLabelsAux total (i + 1) rest

def encodePushLabels (labels : List Nat) : List Nat :=
  encodePushLabelsAux labels.length 0 labels

/-- `NetlinkRouteMessage::addLabelNexthop` (PUSH): `RTA_ENCAP`
container, `MPLS_IPTUNNEL_DST` with the packed encoded labels,
`RTA_ENCAP_TYPE = LWTUNNEL_ENCAP_MPLS`, then `RTA_GATEWAY`.
`none` models the exception thrown by `path.getIfIndex().value()`. -/
def addLabelNexthop (buf : RtaBuf) (path : NextHop) :
    Option (ResultCode × RtaBuf) :=
  match path.ifIndex with
  | none => none
  | some _ =>
    match addSubAttributes buf RTA_ENCAP .empty with
    | none => some (ResultCode.NO_MESSAGE_BUFFER, buf)
    | some b1 =>
      match path.pushLabels with
      | none => some (ResultCode.NO_LABEL, b1)
      | some labels =>
        match addSubAttributes b1 MPLS_IPTUNNEL_DST (.labelEntries (encodePushLabels labels)) with
        | none => some (ResultCode.NO_MESSAGE_BUFFER, b1)
        | some b2 =>
          match addSubAttributes b2 RTA_ENCAP_TYPE (.u16 LWTUNNEL_ENCAP_MPLS) with
          | none => some (ResultCode.NO_MESSAGE_BUFFER, b2)
          | some b3 =>
            match path.gateway with
            | none => some (ResultCode.NO_NEXTHOP_IP, b3)
            | some gw =>
              match addSubAttributes b3 RTA_GATEWAY (.bytes gw) with
              | none => some (ResultCode.NO_MESSAGE_BUFFER, b3)
              | some b4 => some (ResultCode.SUCCESS, b4)

end Netlink

namespace Fib

/-! ## Thrift data model used by Fib.cpp -/

structure IpPrefix where
  addr : List Nat
  plen : Nat
  deriving DecidableEq, Repr

/-- `thrift::NextHopThrift`: binary address with optional interface
name, ECMP weight. -/
structure NextHopT where
  ifName : Option String
  addr : List Nat
  weight : Nat
  deriving DecidableEq, Repr

structure UnicastRoute where
  dest : IpPrefix
  nextHops : List NextHopT
  doNotInstall : Bool
  deriving DecidableEq, Repr

structure MplsRoute where
  topLabel : Nat
  nextHops : List NextHopT
  deriving DecidableEq, Repr

structure RouteDatabase where
  unicastRoutes : List UnicastRoute
  mplsRoutes : List MplsRoute
  deriving DecidableEq, Repr

structure RouteDatabaseDelta where
  unicastRoutesToUpdate : List UnicastRoute
  unicastRoutesToDelete : List IpPrefix
  mplsRoutesToUpdate : List MplsRoute
  mplsRoutesToDelete : List Nat
  deriving DecidableEq, Repr

/-! ## Best-nexthop selection (modelled from the spec) -/

def ltCharList : List Char → List Char → Bool
  | [], [] => false
  | [], _ :: _ => true
  | _ :: _, [] => false
  | c :: cs, d :: ds => c.toNat < d.toNat || (c.toNat == d.toNat && ltCharList cs ds)

/-- Lexicographic order on strings (spelled out on the character lists
so that it evaluates by kernel reduction). -/
def ltStr (a b : String) : Bool := ltCharList a.data b.data

def ltOptStr : Option String → Option String → Bool
  | none, none => false
  | none, some _ => true
  | some _, none => false
  | some a, some b => ltStr a b

def ltBytes : List Nat → List Nat → Bool
  | [], [] => false
  | [], _ :: _ => true
  | _ :: _, [] => false
  | a :: as, b :: bs => a < b || (a == b && ltBytes as bs)

/-- Modelled from the spec: best-path tie-break (§4.1): highest
`weight` first, then lexicographic interface/gateway bytes (the thrift
nexthop carries an interface name rather than an index). -/
def nextHopBetter (a b : NextHopT) : Bool :=
  b.weight < a.weight ||
    (a.weight == b.weight &&
      (ltOptStr a.ifName b.ifName || (a.ifName == b.ifName && ltBytes a.addr b.addr)))

/-- Modelled from the spec: `getBestNextHopsUnicast` (the source
`openr/common/Util.cpp` is not part of the snapshot) deterministically
selects the best nexthop set of a route (§4.1). -/
def getBestNextHopsUnicast : List NextHopT → List NextHopT
  | [] => []
  | h :: t => [t.foldl (fun best nh => if nextHopBetter nh best then nh else best) h]

/-- Modelled from the spec: `getBestNextHopsMpls`, same selection rule
(§4.1). -/
def getBestNextHopsMpls : List NextHopT → List NextHopT
  | [] => []
  | h :: t => [t.foldl (fun best nh => if nextHopBetter nh best then nh else best) h]

/-- Modelled from the spec: "An update carries only best nexthops"
(§4.2); the source `openr/common/Util.cpp` is not part of the
snapshot. -/
def createUnicastRoutesWithBestNexthops (routes : List UnicastRoute) : List UnicastRoute :=
  routes.map (fun r => { r with nextHops := getBestNextHopsUnicast r.nextHops })

/-- Modelled from the spec: MPLS variant of the best-nexthop patch. -/
def createMplsRoutesWithBestNextHops (routes : List MplsRoute) : List MplsRoute :=
  routes.map (fun r => { r with nextHops := getBestNextHopsMpls r.nextHops })

/-- Modelled from the spec: the route delta engine (§4.2, source
`openr/common/Util.cpp` not in the snapshot): a route is an update iff
new or its best-nexthop set changed; a delete iff its destination/label
is absent from the new snapshot. -/
def findDeltaRoutes (newDb oldDb : RouteDatabase) : RouteDatabaseDelta :=
  { unicastRoutesToUpdate :=
      newDb.unicastRoutes.filter (fun r =>
        match oldDb.unicastRoutes.find? (fun o => o.dest == r.dest) with
        | none => true
        | some o => !(getBestNextHopsUnicast r.nextHops == getBestNextHopsUnicast o.nextHops))
    unicastRoutesToDelete :=
      (oldDb.unicastRoutes.filter (fun o =>
        (newDb.unicastRoutes.find? (fun r => r.dest == o.dest)).isNone)).map (fun o => o.dest)
    mplsRoutesToUpdate :=
      newDb.mplsRoutes.filter (fun r =>
        match oldDb.mplsRoutes.find? (fun o => o.topLabel == r.topLabel) with
        | none => true
        | some o => !(getBestNextHopsMpls r.nextHops == getBestNextHopsMpls o.nextHops))
    mplsRoutesToDelete :=
      (oldDb.mplsRoutes.filter (fun o =>
        (newDb.mplsRoutes.find? (fun r => r.topLabel == o.topLabel)).isNone)).map
        (fun o => o.topLabel) }

/-! ## Fib state and operations -/

/-- The reconciler's mutable state (§4.4): route DBs, interface status,
the dirty flag, the full-sync timer (scheduled flag plus pending delay
in ms) and the exponential backoff. -/
structure FibState where
  routeDb : RouteDatabase
  doNotInstallDb : List UnicastRoute
  interfaceStatusDb : List (String × Bool)
  dirtyRouteDb : Bool
  syncTimerScheduled : Bool
  syncTimerDelay : Nat
  backoff : ExpBackoff
  deriving DecidableEq, Repr

/-- RPC calls to the forwarding agent, in the order issued. -/
inductive FibRpc where
  | deleteUnicastRoutes (prefixes : List IpPrefix)
  | addUnicastRoutes (routes : List UnicastRoute)
  | deleteMplsRoutes (labels : List Nat)
  | addMplsRoutes (routes : List MplsRoute)
  deriving DecidableEq, Repr

/-- Rank of an agent RPC in the delete-before-add order the spec
prescribes: delete-unicast, add-unicast, delete-MPLS, add-MPLS. -/
def rpcRank : FibRpc → Nat
  | .deleteUnicastRoutes _ => 0
  | .addUnicastRoutes _ => 1
  | .deleteMplsRoutes _ => 2
  | .addMplsRoutes _ => 3

/-- Spec-side description (§4.3) of nexthop survival under an affected
set: a nexthop is dropped iff its interface name is in `affected`;
a nexthop without an interface name is always retained. -/
def specNexthopSurvives (affected : List String) (nh : NextHopT) : Bool :=
  match nh.ifName with
  | none => true
  | some name => !(affected.contains name)

/-- `Fib::syncRouteDbDebounced`: schedule an immediate (0 ms) run of
the full-sync timer unless one is already scheduled. -/
def syncRouteDbDebounced (st : FibState) : FibState :=
  if st.syncTimerScheduled then st
  else { st with syncTimerScheduled := true, syncTimerDelay := 0 }

/-- The agent RPCs the delta path of `Fib::updateRoutes` issues when it
reaches the thrift calls: delete-unicast, add-unicast (patched to best
nexthops), then — only with segment routing enabled — delete-MPLS and
add-MPLS; empty argument lists suppress the call. -/
def updateRoutesCalls (enableSegmentRouting : Bool) (delta : RouteDatabaseDelta) :
    List FibRpc :=
  (if delta.unicastRoutesToDelete ≠ [] then
    [FibRpc.deleteUnicastRoutes delta.unicastRoutesToDelete] else []) ++
  (if createUnicastRoutesWithBestNexthops delta.unicastRoutesToUpdate ≠ [] then
    [FibRpc.addUnicastRoutes (createUnicastRoutesWithBestNexthops delta.unicastRoutesToUpdate)]
   else []) ++
  (if enableSegmentRouting ∧ delta.mplsRoutesToDelete ≠ [] then
    [FibRpc.deleteMplsRoutes delta.mplsRoutesToDelete] else []) ++
  (if enableSegmentRouting ∧ createMplsRoutesWithBestNextHops delta.mplsRoutesToUpdate ≠ [] then
    [FibRpc.addMplsRoutes (createMplsRoutesWithBestNextHops delta.mplsRoutesToUpdate)]
   else [])

/-- `Fib::updateRoutes`: in dryrun nothing is programmed; with a full
sync scheduled the delta is skipped; with the dirty flag set the delta
is skipped and an immediate full sync is scheduled; otherwise the agent
RPCs are issued in order.  `failAt = some k` models the `k`-th RPC
throwing (the catch sets the dirty flag and schedules a debounced full
sync); `none` means all calls succeed. -/
def updateRoutes (dryrun enableSegmentRouting : Bool) (failAt : Option Nat)
    (delta : RouteDatabaseDelta) (st : FibState) : FibState × List FibRpc :=
  if dryrun then (st, [])
  else if st.syncTimerScheduled then (st, [])
  else if st.dirtyRouteDb then (syncRouteDbDebounced st, [])
  else
    let calls := updateRoutesCalls enableSegmentRouting delta
    match failAt with
    | some k =>
      if k < calls.length then
        (syncRouteDbDebounced { st with dirtyRouteDb := true }, calls.take (k + 1))
      else ({ st with dirtyRouteDb := false }, calls)
    | none => ({ st with dirtyRouteDb := false }, calls)

/-- `Fib::syncRouteDb`: dryrun only logs and reports success; otherwise
`rpcOk` abstracts the outcome of the `syncFib`/`syncMplsFib` thrift
calls — success clears the dirty flag and returns true, an exception
sets it and returns false. -/
def syncRouteDb (dryrun rpcOk : Bool) (st : FibState) : FibState × Bool :=
  if dryrun then (st, true)
  else if rpcOk then ({ st with dirtyRouteDb := false }, true)
  else ({ st with dirtyRouteDb := true }, false)

/-- The `syncRoutesTimer_` callback (Fib.cpp constructor): run
`syncRouteDb`; on success report success to the backoff, on failure
report an error and reschedule the timer after
`getTimeRemainingUntilRetry()`.  Firing consumes the scheduled
timeout. -/
def fireSyncRoutesTimer (dryrun rpcOk : Bool) (st : FibState) : FibState :=
  let st0 : FibState := { st with syncTimerScheduled := false }
  let res := syncRouteDb dryrun rpcOk st0
  if res.2 then { res.1 with backoff := res.1.backoff.reportSuccess }
  else
    let b := res.1.backoff.reportError
    { res.1 with
      backoff := b
      syncTimerScheduled := true
      syncTimerDelay := b.getTimeRemainingUntilRetry }

/-- `Fib::processRouteDb` (without the trailing `updateRoutes` call,
returned as the computed delta): partition `doNotInstall` routes off
the incoming snapshot, compute the delta of the installable remainder
against the current DB, then commit both DBs. -/
def processRouteDb (newDb : RouteDatabase) (st : FibState) :
    FibState × RouteDatabaseDelta :=
  let installable := newDb.unicastRoutes.filter (fun r => !r.doNotInstall)
  let doNotInstall := newDb.unicastRoutes.filter (fun r => r.doNotInstall)
  let newDb' : RouteDatabase := { newDb with unicastRoutes := installable }
  let delta := findDeltaRoutes newDb' st.routeDb
  ({ st with routeDb := newDb', doNotInstallDb := doNotInstall }, delta)

inductive FibCommand where
  | ROUTE_DB_GET
  | PERF_DB_GET
  | ROUTE_DB_UNINSTALLABLE_GET
  deriving DecidableEq, Repr

inductive FibResponse where
  | routeDb (db : RouteDatabase)
  | perfDb
  deriving DecidableEq, Repr

/-- `Fib::processRequestMsg`: `ROUTE_DB_GET` returns the installable
DB, `ROUTE_DB_UNINSTALLABLE_GET` the partitioned `doNotInstall` DB. -/
def processRequestMsg (st : FibState) (cmd : FibCommand) : FibResponse :=
  match cmd with
  | .ROUTE_DB_GET => .routeDb st.routeDb
  | .PERF_DB_GET => .perfDb
  | .ROUTE_DB_UNINSTALLABLE_GET =>
      .routeDb { unicastRoutes := st.doNotInstallDb, mplsRoutes := [] }

/-- The first loop of `Fib::processInterfaceDb`: walk the incoming
interface map, look up the previous status with default `false`
(`folly::get_default`), record the new status, and collect interfaces
that went from up to down. -/
def computeAffected :
    List (String × Bool) → List (String × Bool) → List (String × Bool) × List String
  | statusDb, [] => (statusDb, [])
  | statusDb, (ifName, isUp) :: rest =>
    let wasUp := (assocLookup statusDb ifName).getD false
    let statusDb' := assocSet statusDb ifName isUp
    let res := computeAffected statusDb' rest
    (res.1, (if wasUp ∧ ¬ isUp then [ifName] else []) ++ res.2)

/-- The unicast loop of `Fib::processInterfaceDb`: per route, keep the
nexthops whose interface is not affected (the `CHECK` on a present
`ifName` is modelled as `none`), emit an update when the surviving best
set is nonempty and changed, and delete the route when no nexthop
survives.  Returns (surviving routes, updates, deletes). -/
def processUnicastRoutes (affected : List String) :
    List UnicastRoute → Option (List UnicastRoute × List UnicastRoute × List IpPrefix)
  | [] => some ([], [], [])
  | r :: rest =>
    if r.nextHops.any (fun nh => nh.ifName.isNone) then none
    else
      let validNextHops := r.nextHops.filter
        (fun nh => !(affected.contains (nh.ifName.getD "")))
      let prevBestNextHops := getBestNextHopsUnicast r.nextHops
      let validBestNextHops := getBestNextHopsUnicast validNextHops
      let upd := if validBestNextHops ≠ [] ∧ validBestNextHops ≠ prevBestNextHops then
          [{ dest := r.dest, nextHops := validBestNextHops, doNotInstall := false }]
        else []
      let keep := if validNextHops = [] then [] else [{ r with nextHops := validNextHops }]
      let del := if validNextHops = [] then [r.dest] else []
      match processUnicastRoutes affected rest with
      | none => none
      | some (ks, us, ds) => some (keep ++ ks, upd ++ us, del ++ ds)

/-- The MPLS loop of `Fib::processInterfaceDb`: nexthops without an
interface name (`POP_AND_LOOKUP`) are always kept; otherwise the same
filtering, update and delete logic as for unicast routes. -/
def processMplsRoutes (affected : List String) :
    List MplsRoute → List MplsRoute × List MplsRoute × List Nat
  | [] => ([], [], [])
  | r :: rest =>
    let validNextHops := r.nextHops.filter
      (fun nh => nh.ifName.isNone || !(affected.contains (nh.ifName.getD "")))
    let prevBestNextHops := getBestNextHopsMpls r.nextHops
    let validBestNextHops := getBestNextHopsMpls validNextHops
    let upd := if validBestNextHops ≠ [] ∧ validBestNextHops ≠ prevBestNextHops then
        [{ topLabel := r.topLabel, nextHops := validBestNextHops }]
      else []
    let keep := if validNextHops = [] then [] else [{ r with nextHops := validNextHops }]
    let del := if validNextHops = [] then [r.topLabel] else []
    let res := processMplsRoutes affected rest
    (keep ++ res.1, upd ++ res.2.1, del ++ res.2.2)

/-- `Fib::processInterfaceDb` (without the trailing `updateRoutes`
call, returned as the computed delta): update the interface status DB,
compute the affected set, filter every stored route through it. -/
def processInterfaceDb (st : FibState) (interfaces : List (String × Bool)) :
    Option (FibState × RouteDatabaseDelta) :=
  let res := computeAffected st.interfaceStatusDb interfaces
  let statusDb' := res.1
  let affected := res.2
  match processUnicastRoutes affected st.routeDb.unicastRoutes with
  | none => none
  | some (uKeep, uUpd, uDel) =>
    let m := processMplsRoutes affected st.routeDb.mplsRoutes
    let st' : FibState :=
      { st with
        interfaceStatusDb := statusDb'
        routeDb := { unicastRoutes := uKeep, mplsRoutes := m.1 } }
    let delta : RouteDatabaseDelta :=
      { unicastRoutesToUpdate := uUpd
        unicastRoutesToDelete := uDel
        mplsRoutesToUpdate := m.2.1
        mplsRoutesToDelete := m.2.2 }
    some (st', delta)

/-! Spec-side (§4.3) description of the interface-driven filtering, to
be compared with `processInterfaceDb`. -/

/-- Spec-side: the nexthops of a route surviving an affected set. -/
def specSurvivingNextHops (affected : List String) (nhs : List NextHopT) : List NextHopT :=
  nhs.filter (specNexthopSurvives affected)

/-- Spec-side: the stored unicast routes after filtering — routes whose
surviving nexthop set is nonempty, with nexthops replaced by the
survivors. -/
def specUnicastKeep (affected : List String) (routes : List UnicastRoute) :
    List UnicastRoute :=
  routes.filterMap (fun r =>
    if specSurvivingNextHops affected r.nextHops = [] then none
    else some { r with nextHops := specSurvivingNextHops affected r.nextHops })

/-- Spec-side: the emitted unicast updates — routes whose surviving
best-nexthop set is nonempty and differs from the previous best set,
carrying the surviving best set. -/
def specUnicastUpdates (affected : List String) (routes : List UnicastRoute) :
    List UnicastRoute :=
  routes.filterMap (fun r =>
    if getBestNextHopsUnicast (specSurvivingNextHops affected r.nextHops) ≠ [] ∧
        getBestNextHopsUnicast (specSurvivingNextHops affected r.nextHops) ≠
          getBestNextHopsUnicast r.nextHops then
      some { dest := r.dest,
             nextHops := getBestNextHopsUnicast (specSurvivingNextHops affected r.nextHops),
             doNotInstall := false }
    else none)

/-- Spec-side: the emitted unicast deletes — destinations whose
surviving nexthop set is empty. -/
def specUnicastDeletes (affected : List String) (routes : List UnicastRoute) :
    List IpPrefix :=
  routes.filterMap (fun r =>
    if specSurvivingNextHops affected r.nextHops = [] then some r.dest else none)

/-- Spec-side: the stored MPLS routes after filtering. -/
def specMplsKeep (affected : List String) (routes : List MplsRoute) : List MplsRoute :=
  routes.filterMap (fun r =>
    if specSurvivingNextHops affected r.nextHops = [] then none
    else some { r with nextHops := specSurvivingNextHops affected r.nextHops })

/-- Spec-side: the emitted MPLS updates. -/
def specMplsUpdates (affected : List String) (routes : List MplsRoute) : List MplsRoute :=
  routes.filterMap (fun r =>
    if getBestNextHopsMpls (specSurvivingNextHops affected r.nextHops) ≠ [] ∧
        getBestNextHopsMpls (specSurvivingNextHops affected r.nextHops) ≠
          getBestNextHopsMpls r.nextHops then
      some { topLabel := r.topLabel,
             nextHops := getBestNextHopsMpls (specSurvivingNextHops affected r.nextHops) }
    else none)

/-- Spec-side: the emitted MPLS deletes. -/
def specMplsDeletes (affected : List String) (routes : List MplsRoute) : List Nat :=
  routes.filterMap (fun r =>
    if specSurvivingNextHops affected r.nextHops = [] then some r.topLabel else none)

end Fib

namespace PersistentStore

/-! ## PersistentStore (openr/config-store/PersistentStore.cpp) -/

inductive StoreRequestType where
  | STORE
  | LOAD
  | ERASE
  | UNKNOWN
  deriving DecidableEq, Repr

structure StoreRequest where
  requestType : StoreRequestType
  key : String
  data : String
  deriving DecidableEq, Repr

structure StoreResponse where
  key : String
  success : Bool
  data : String
  deriving DecidableEq, Repr

/-- The store's state: the in-memory key/value map, whether a debounce
backoff was configured (`saveDbTimerBackoff_`), the save timer
(scheduled flag plus pending delay), the backoff, and a counter of
synchronous `saveDatabaseToDisk` calls performed while handling
requests. -/
structure PStoreState where
  keyVals : List (String × String)
  hasBackoff : Bool
  timerScheduled : Bool
  timerDelay : Nat
  backoff : ExpBackoff
  savesPerformed : Nat
  deriving DecidableEq, Repr

/-- `PersistentStore::processRequestMsg`: handle STORE/LOAD/ERASE,
then — on success of a non-LOAD request — save synchronously when no
backoff is configured, else arm the save timer if it is not already
scheduled. -/
def processRequestMsg (st : PStoreState) (req : StoreRequest) :
    PStoreState × StoreResponse :=
  let step : PStoreState × StoreResponse :=
    match req.requestType with
    | .STORE =>
      ({ st with keyVals := assocSet st.keyVals req.key req.data },
        { key := req.key, success := true, data := "" })
    | .LOAD =>
      match assocLookup st.keyVals req.key with
      | some v => (st, { key := req.key, success := true, data := v })
      | none => (st, { key := req.key, success := false, data := "" })
    | .ERASE =>
      let res := assocErase st.keyVals req.key
      ({ st with keyVals := res.1 }, { key := req.key, success := res.2, data := "" })
    | .UNKNOWN => (st, { key := req.key, success := false, data := "" })
  let st1 := step.1
  let response := step.2
  let st2 :=
    if response.success ∧ req.requestType ≠ .LOAD then
      if ¬ st1.hasBackoff then { st1 with savesPerformed := st1.savesPerformed + 1 }
      else if ¬ st1.timerScheduled then
        { st1 with
          timerScheduled := true
          timerDelay := st1.backoff.getTimeRemainingUntilRetry }
      else st1
    else st1
  (st2, response)

end PersistentStore

/-! ## Concrete scenario inputs (spec §8, scenario 4) -/

/-- A reconciler state holding one route with nexthops via `eth0` and
`eth1`, both interfaces up. -/
def c4State : Fib.FibState :=
  { routeDb :=
      { unicastRoutes :=
          [{ dest := { addr := [10, 0, 0, 0], plen := 24 },
             nextHops :=
               [{ ifName := some "eth0", addr := [1, 2, 3, 4], weight := 0 },
                { ifName := some "eth1", addr := [5, 6, 7, 8], weight := 0 }],
             doNotInstall := false }]
        mplsRoutes := [] }
    doNotInstallDb := []
    interfaceStatusDb := [("eth0", true), ("eth1", true)]
    dirtyRouteDb := false
    syncTimerScheduled := false
    syncTimerDelay := 0
    backoff := { initialMs := 8, maxMs := 4096, currentMs := 0 } }

/-- A small reconciler state used as concrete input by witnesses. -/
def fibBase : Fib.FibState :=
  { routeDb :=
      { unicastRoutes :=
          [{ dest := { addr := [10, 0, 0, 0], plen := 24 },
             nextHops := [{ ifName := some "eth0", addr := [1, 2, 3, 4], weight := 0 }],
             doNotInstall := false }]
        mplsRoutes := [] }
    doNotInstallDb := []
    interfaceStatusDb := [("eth0", true)]
    dirtyRouteDb := false
    syncTimerScheduled := false
    syncTimerDelay := 0
    backoff := { initialMs := 8, maxMs := 4096, currentMs := 16 } }

/-- A small persistent-store state used as concrete input by
witnesses. -/
def pstoreBase : PersistentStore.PStoreState :=
  { keyVals := [("node", "a")]
    hasBackoff := true
    timerScheduled := false
    timerDelay := 0
    backoff := { initialMs := 100, maxMs := 5000, currentMs := 100 }
    savesPerformed := 0 }

/-- A one-entry route delta used as concrete input by witnesses. -/
def deltaBase : Fib.RouteDatabaseDelta :=
  { unicastRoutesToUpdate :=
      [{ dest := { addr := [10, 0, 0, 0], plen := 24 },
         nextHops := [{ ifName := some "eth0", addr := [1, 2, 3, 4], weight := 0 }],
         doNotInstall := false }]
    unicastRoutesToDelete := [{ addr := [10, 1, 0, 0], plen := 24 }]
    mplsRoutesToUpdate := [{ topLabel := 100, nextHops := [] }]
    mplsRoutesToDelete := [200] }

/-! ## Helper lemmas: netlink encoder -/

theorem addSubAttributes_attrs {buf b : Netlink.RtaBuf} {ty : Nat} {p : Netlink.Payload}
    (h : Netlink.addSubAttributes buf ty p = some b) :
    b.attrs = buf.attrs ++ [⟨ty, p⟩] := by
  unfold Netlink.addSubAttributes at h
  dsimp only at h
  split at h
  · simp at h
  · simp only [Option.some.injEq] at h
    subst h
    rfl

theorem encodeLabel_clamp (l : Nat) (bos : Bool) :
    Netlink.encodeLabel l bos =
      Netlink.encodeLabel (if l > 0xFFFFF then 0 else l) bos := by
  by_cases hl : l > 0xFFFFF <;> simp [Netlink.encodeLabel, hl]

theorem encodePushLabelsAux_concat (last : Nat) (init : List Nat) :
    ∀ i : Nat,
      Netlink.encodePushLabelsAux (i + (init ++ [last]).length) i (init ++ [last]) =
        init.map (fun l => Netlink.encodeLabel l false) ++ [Netlink.encodeLabel last true] := by
  induction init with
  | nil =>
    intro i
    simp [Netlink.encodePushLabelsAux]
  | cons x xs ih =>
    intro i
    have hlen : i + (x :: (xs ++ [last])).length = (i + 1) + (xs ++ [last]).length := by
      simp only [List.length_cons]
      omega
    have hfalse : (i == i + (x :: (xs ++ [last])).length - 1) = false := by
      rw [beq_eq_false_iff_ne]
      have hp : (xs ++ [last]).length = xs.length + 1 := by simp
      simp only [List.length_cons, hp]
      omega
    simp only [List.cons_append, Netlink.encodePushLabelsAux, hfalse, List.map_cons,
      List.cons_append]
    rw [List.append_eq, hlen, ih (i + 1)]

theorem encodePushLabels_concat (init : List Nat) (last : Nat) :
    Netlink.encodePushLabels (init ++ [last]) =
      init.map (fun l => Netlink.encodeLabel l false) ++ [Netlink.encodeLabel last true] := by
  unfold Netlink.encodePushLabels
  have h := encodePushLabelsAux_concat last init 0
  simpa using h

theorem encodePushLabelsAux_clamp (total : Nat) (ls : List Nat) :
    ∀ i : Nat,
      Netlink.encodePushLabelsAux total i (ls.map (fun l => if l > 0xFFFFF then 0 else l)) =
        Netlink.encodePushLabelsAux total i ls := by
  induction ls with
  | nil => intro i; rfl
  | cons x xs ih =>
    intro i
    simp only [List.map_cons, Netlink.encodePushLabelsAux]
    rw [← encodeLabel_clamp, ih (i + 1)]

theorem encodePushLabels_clamp (ls : List Nat) :
    Netlink.encodePushLabels (ls.map (fun l => if l > 0xFFFFF then 0 else l)) =
      Netlink.encodePushLabels ls := by
  unfold Netlink.encodePushLabels
  rw [List.length_map]
  exact encodePushLabelsAux_clamp ls.length ls 0

/-! ## Claim C1 -/

/-- C1 counterexample: with the out-of-range label `2^20` in
`push_labels`, `addLabelNexthop` reports `SUCCESS` — the out-of-range
condition is not surfaced as an error of the encode; the label is
silently clamped (`encodeLabel 2^20 = encodeLabel 0`). -/
theorem C1_counterexample :
    (Netlink.addLabelNexthop (Netlink.freshBuf 4096)
      { ifIndex := some 3, gateway := some [192, 0, 2, 1], family := 2,
        labelAction := some Netlink.MplsActionCode.PUSH, swapLabel := none,
        pushLabels := some [1048576], weight := 0 }).map Prod.fst =
      some Netlink.ResultCode.SUCCESS ∧
    Netlink.encodeLabel 1048576 true = Netlink.encodeLabel 0 true := by
  constructor
  · rfl
  · rfl

/-- C1 (amended): an MPLS label value outside `[0, 2^20)` is clamped to
zero with a logged error, and the encode then behaves exactly as if the
clamped label had been supplied — it reports the same (success) result
rather than surfacing an error. -/
theorem C1_amended_clamp_is_silent :
    (∀ l bos, l ≥ 1048576 → Netlink.encodeLabel l bos = Netlink.encodeLabel 0 bos) ∧
    (∀ buf path ls, path.pushLabels = some ls →
      Netlink.addLabelNexthop buf path =
        Netlink.addLabelNexthop buf
          { path with pushLabels := some (ls.map (fun l => if l > 0xFFFFF then 0 else l)) }) ∧
    (∀ buf path l, path.swapLabel = some l →
      Netlink.addSwapOrPHPNexthop buf path =
        Netlink.addSwapOrPHPNexthop buf
          { path with swapLabel := some (if l > 0xFFFFF then 0 else l) }) := by
  refine ⟨?_, ?_, ?_⟩
  · intro l bos hl
    rw [encodeLabel_clamp l bos, if_pos (show l > 0xFFFFF by omega)]
  · intro buf path ls hpush
    unfold Netlink.addLabelNexthop
    simp only [hpush, encodePushLabels_clamp]
  · intro buf path l hswap
    unfold Netlink.addSwapOrPHPNexthop
    simp only [hswap, ← encodeLabel_clamp]

/-- C1 amended witness: the amended equality evaluated at the
out-of-range push label `2^20` and the out-of-range swap label
`2^20 + 7`. -/
theorem C1_amended_witness :
    Netlink.encodeLabel 1048577 true = Netlink.encodeLabel 0 true ∧
    Netlink.addLabelNexthop (Netlink.freshBuf 4096)
        { ifIndex := some 3, gateway := some [192, 0, 2, 1], family := 2,
          labelAction := some Netlink.MplsActionCode.PUSH, swapLabel := none,
          pushLabels := some [1048576, 17], weight := 0 } =
      Netlink.addLabelNexthop (Netlink.freshBuf 4096)
        { ifIndex := some 3, gateway := some [192, 0, 2, 1], family := 2,
          labelAction := some Netlink.MplsActionCode.PUSH, swapLabel := none,
          pushLabels := some ([1048576, 17].map (fun l => if l > 0xFFFFF then 0 else l)),
          weight := 0 } ∧
    Netlink.addSwapOrPHPNexthop (Netlink.freshBuf 4096)
        { ifIndex := some 3, gateway := some [192, 0, 2, 1], family := 2,
          labelAction := some Netlink.MplsActionCode.SWAP,
          swapLabel := some 1048583, pushLabels := none, weight := 0 } =
      Netlink.addSwapOrPHPNexthop (Netlink.freshBuf 4096)
        { ifIndex := some 3, gateway := some [192, 0, 2, 1], family := 2,
          labelAction := some Netlink.MplsActionCode.SWAP,
          swapLabel := some (if 1048583 > 0xFFFFF then 0 else 1048583),
          pushLabels := none, weight := 0 } :=
  ⟨C1_amended_clamp_is_silent.1 1048577 true (by omega),
   C1_amended_clamp_is_silent.2.1 _ _ [1048576, 17] rfl,
   C1_amended_clamp_is_silent.2.2 _ _ 1048583 rfl⟩

/-! ## Claim C2 -/

/-- C2: for every label `L` in `[0, 2^20)`, `encodeLabel L bos` equals
`htonl((L & 0xFFFFF) << 12)`, OR-ed with `htonl(1 << 8)` when `bos`;
and for every PUSH nexthop with non-empty `push_labels`,
`addLabelNexthop` encodes exactly the labels of `push_labels` in order,
with BOS=0 on all but the last label and BOS=1 on the last label. -/
theorem C2_encodeLabel_and_push_bos :
    (∀ L bos, L < 1048576 →
      Netlink.encodeLabel L bos =
        if bos then Netlink.htonl ((L &&& 0xFFFFF) <<< 12) ||| Netlink.htonl (1 <<< 8)
        else Netlink.htonl ((L &&& 0xFFFFF) <<< 12)) ∧
    (∀ buf path init last b,
      path.pushLabels = some (init ++ [last]) →
      Netlink.addLabelNexthop buf path = some (Netlink.ResultCode.SUCCESS, b) →
      ∃ gw, path.gateway = some gw ∧
        b.attrs = buf.attrs ++
          [⟨Netlink.RTA_ENCAP, Netlink.Payload.empty⟩,
           ⟨Netlink.MPLS_IPTUNNEL_DST,
            Netlink.Payload.labelEntries
              (init.map (fun l => Netlink.encodeLabel l false) ++
                [Netlink.encodeLabel last true])⟩,
           ⟨Netlink.RTA_ENCAP_TYPE, Netlink.Payload.u16 Netlink.LWTUNNEL_ENCAP_MPLS⟩,
           ⟨Netlink.RTA_GATEWAY, Netlink.Payload.bytes gw⟩]) := by
  constructor
  · intro L bos hL
    have hnotgt : ¬ L > 0xFFFFF := by omega
    have hand : L &&& 0xFFFFF = L := by
      have h20 : (0xFFFFF : Nat) = 2 ^ 20 - 1 := by norm_num
      rw [h20, Nat.and_pow_two_sub_one_eq_mod, Nat.mod_eq_of_lt hL]
    have hmod : (L <<< Netlink.kLabelShift) % 4294967296 = L <<< 12 := by
      rw [Netlink.kLabelShift, Nat.shiftLeft_eq]
      apply Nat.mod_eq_of_lt
      have : (2 : Nat) ^ 12 = 4096 := by norm_num
      rw [this]
      omega
    unfold Netlink.encodeLabel
    dsimp only
    rw [if_neg hnotgt, hand, hmod]
    rfl
  · intro buf path init last b hpush hsucc
    unfold Netlink.addLabelNexthop at hsucc
    split at hsucc
    · simp at hsucc
    · split at hsucc
      · simp at hsucc
      · rename_i b1 h1
        split at hsucc
        · rename_i hnone
          rw [hpush] at hnone
          simp at hnone
        · rename_i labels hlabels
          rw [hpush] at hlabels
          simp only [Option.some.injEq] at hlabels
          subst hlabels
          split at hsucc
          · simp at hsucc
          · rename_i b2 h2
            split at hsucc
            · simp at hsucc
            · rename_i b3 h3
              split at hsucc
              · simp at hsucc
              · rename_i gw hgw
                split at hsucc
                · simp at hsucc
                · rename_i b4 h4
                  simp only [Option.some.injEq, Prod.mk.injEq] at hsucc
                  refine ⟨gw, hgw, ?_⟩
                  rw [← hsucc.2]
                  rw [addSubAttributes_attrs h4, addSubAttributes_attrs h3,
                    addSubAttributes_attrs h2, addSubAttributes_attrs h1,
                    encodePushLabels_concat]
                  simp

/-- C2 witness: the two conjuncts evaluated at label 100 (BOS set) and
at the push stack `[200, 300]` — labels appear in order with BOS only
on 300. -/
theorem C2_witness :
    (Netlink.encodeLabel 100 true =
      if true then Netlink.htonl ((100 &&& 0xFFFFF) <<< 12) ||| Netlink.htonl (1 <<< 8)
      else Netlink.htonl ((100 &&& 0xFFFFF) <<< 12)) ∧
    (∃ b, Netlink.addLabelNexthop (Netlink.freshBuf 4096)
        { ifIndex := some 3, gateway := some [192, 0, 2, 1], family := 2,
          labelAction := some Netlink.MplsActionCode.PUSH, swapLabel := none,
          pushLabels := some ([200] ++ [300]), weight := 0 } =
        some (Netlink.ResultCode.SUCCESS, b) ∧
      b.attrs = (Netlink.freshBuf 4096).attrs ++
          [⟨Netlink.RTA_ENCAP, Netlink.Payload.empty⟩,
           ⟨Netlink.MPLS_IPTUNNEL_DST,
            Netlink.Payload.labelEntries
              ([200].map (fun l => Netlink.encodeLabel l false) ++
                [Netlink.encodeLabel 300 true])⟩,
           ⟨Netlink.RTA_ENCAP_TYPE, Netlink.Payload.u16 Netlink.LWTUNNEL_ENCAP_MPLS⟩,
           ⟨Netlink.RTA_GATEWAY, Netlink.Payload.bytes [192, 0, 2, 1]⟩]) := by
  constructor
  · exact C2_encodeLabel_and_push_bos.1 100 true (by omega)
  · have hex : ∃ b, Netlink.addLabelNexthop (Netlink.freshBuf 4096)
        { ifIndex := some 3, gateway := some [192, 0, 2, 1], family := 2,
          labelAction := some Netlink.MplsActionCode.PUSH, swapLabel := none,
          pushLabels := some ([200] ++ [300]), weight := 0 } =
        some (Netlink.ResultCode.SUCCESS, b) := ⟨_, rfl⟩
    obtain ⟨b, hb⟩ := hex
    obtain ⟨gw, hgw, hattrs⟩ :=
      C2_encodeLabel_and_push_bos.2 (Netlink.freshBuf 4096)
        { ifIndex := some 3, gateway := some [192, 0, 2, 1], family := 2,
          labelAction := some Netlink.MplsActionCode.PUSH, swapLabel := none,
          pushLabels := some ([200] ++ [300]), weight := 0 }
        [200] 300 b rfl hb
    have hgw2 : gw = [192, 0, 2, 1] := (Option.some.inj hgw).symm
    subst hgw2
    exact ⟨b, hb, hattrs⟩

/-! ## Claim C3 -/

/-- C3: for a nexthop without a label action and without a gateway,
`addIpNexthop` succeeds emitting no `RTA_GATEWAY` attribute iff the
route has type multicast or scope link; for every other route it fails
the encoding with `NO_NEXTHOP_IP`. -/
theorem C3_addIpNexthop_no_gateway :
    ∀ buf path route i,
      path.ifIndex = some i → path.gateway = none → path.labelAction = none →
      ((Netlink.addIpNexthop buf path route = some (Netlink.ResultCode.SUCCESS, buf)) ↔
        (route.rtype = Netlink.RTN_MULTICAST ∨ route.scope = Netlink.RT_SCOPE_LINK)) ∧
      (¬(route.rtype = Netlink.RTN_MULTICAST ∨ route.scope = Netlink.RT_SCOPE_LINK) →
        Netlink.addIpNexthop buf path route = some (Netlink.ResultCode.NO_NEXTHOP_IP, buf)) := by
  intro buf path route i hIf hgw hact
  have hdef : Netlink.addIpNexthop buf path route =
      if route.rtype = Netlink.RTN_MULTICAST ∨ route.scope = Netlink.RT_SCOPE_LINK then
        some (Netlink.ResultCode.SUCCESS, buf)
      else some (Netlink.ResultCode.NO_NEXTHOP_IP, buf) := by
    unfold Netlink.addIpNexthop
    rw [hIf, hgw]
  constructor
  · rw [hdef]
    constructor
    · intro h
      by_contra hc
      rw [if_neg hc] at h
      simp at h
    · intro hcond
      rw [if_pos hcond]
  · intro hc
    rw [hdef, if_neg hc]

/-- C3 witness: a link-scope route accepts the gateway-less nexthop
unchanged; a universe-scope unicast route rejects it with
`NO_NEXTHOP_IP`. -/
theorem C3_witness :
    Netlink.addIpNexthop (Netlink.freshBuf 4096)
        { ifIndex := some 3, gateway := none, family := 2, labelAction := none,
          swapLabel := none, pushLabels := none, weight := 0 }
        { family := 2, rtype := 1, scope := Netlink.RT_SCOPE_LINK, destBytes := [10, 0, 0, 0],
          prefixLen := 24, mplsLabel := none, protocolId := 99, nextHops := [] } =
      some (Netlink.ResultCode.SUCCESS, Netlink.freshBuf 4096) ∧
    Netlink.addIpNexthop (Netlink.freshBuf 4096)
        { ifIndex := some 3, gateway := none, family := 2, labelAction := none,
          swapLabel := none, pushLabels := none, weight := 0 }
        { family := 2, rtype := 1, scope := 0, destBytes := [10, 0, 0, 0],
          prefixLen := 24, mplsLabel := none, protocolId := 99, nextHops := [] } =
      some (Netlink.ResultCode.NO_NEXTHOP_IP, Netlink.freshBuf 4096) := by
  constructor
  · exact (C3_addIpNexthop_no_gateway _ _ _ 3 rfl rfl rfl).1.mpr (by right; rfl)
  · exact (C3_addIpNexthop_no_gateway _ _ _ 3 rfl rfl rfl).2 (by simp [Netlink.RTN_MULTICAST, Netlink.RT_SCOPE_LINK])

/-! ## Helper lemmas: interface-driven filtering -/

theorem filterMap_some_of_mem {α : Type} (f : α → Option α) :
    ∀ l : List α, (∀ a ∈ l, f a = some a) → l.filterMap f = l := by
  intro l
  induction l with
  | nil => intro h; rfl
  | cons x xs ih =>
    intro h
    rw [List.filterMap_cons, h x (by simp)]
    rw [ih (fun a ha => h a (by simp [ha]))]

theorem filterMap_none_of_mem {α β : Type} (f : α → Option β) :
    ∀ l : List α, (∀ a ∈ l, f a = none) → l.filterMap f = [] := by
  intro l
  induction l with
  | nil => intro h; rfl
  | cons x xs ih =>
    intro h
    rw [List.filterMap_cons, h x (by simp)]
    exact ih (fun a ha => h a (by simp [ha]))

theorem specNexthopSurvives_mpls_pred (affected : List String) (nh : Fib.NextHopT) :
    (nh.ifName.isNone || !(affected.contains (nh.ifName.getD ""))) =
      Fib.specNexthopSurvives affected nh := by
  unfold Fib.specNexthopSurvives
  cases h : nh.ifName <;> simp [h]

theorem filter_valid_eq_spec (affected : List String) (nhs : List Fib.NextHopT)
    (h : ∀ nh ∈ nhs, nh.ifName ≠ none) :
    nhs.filter (fun nh => !(affected.contains (nh.ifName.getD ""))) =
      Fib.specSurvivingNextHops affected nhs := by
  unfold Fib.specSurvivingNextHops
  apply List.filter_congr
  intro nh hmem
  cases hif : nh.ifName with
  | none => exact absurd hif (h nh hmem)
  | some name => simp [Fib.specNexthopSurvives, hif]

theorem filter_mpls_eq_spec (affected : List String) (nhs : List Fib.NextHopT) :
    nhs.filter (fun nh => nh.ifName.isNone || !(affected.contains (nh.ifName.getD ""))) =
      Fib.specSurvivingNextHops affected nhs := by
  unfold Fib.specSurvivingNextHops
  apply List.filter_congr
  intro nh _
  exact specNexthopSurvives_mpls_pred affected nh

theorem processUnicastRoutes_noNone (affected : List String) :
    ∀ (routes : List Fib.UnicastRoute) out,
      Fib.processUnicastRoutes affected routes = some out →
      ∀ r ∈ routes, ∀ nh ∈ r.nextHops, nh.ifName ≠ none := by
  intro routes
  induction routes with
  | nil =>
    intro out _ r hr
    simp at hr
  | cons r0 rest ih =>
    intro out h r hr
    unfold Fib.processUnicastRoutes at h
    split at h
    · simp at h
    · rename_i hany
      rcases List.mem_cons.mp hr with hr0 | hrest
      · subst hr0
        intro nh hnh hnone
        have : (r.nextHops.any fun nh => nh.ifName.isNone) = true := by
          rw [List.any_eq_true]
          exact ⟨nh, hnh, by simp [hnone]⟩
        exact hany this
      · dsimp only at h
        split at h
        · simp at h
        · rename_i ks us ds heq
          exact ih (ks, us, ds) heq r hrest

theorem processUnicastRoutes_eq (affected : List String) :
    ∀ routes : List Fib.UnicastRoute,
      (∀ r ∈ routes, ∀ nh ∈ r.nextHops, nh.ifName ≠ none) →
      Fib.processUnicastRoutes affected routes = some
        (Fib.specUnicastKeep affected routes,
         Fib.specUnicastUpdates affected routes,
         Fib.specUnicastDeletes affected routes) := by
  intro routes
  induction routes with
  | nil => intro _; rfl
  | cons r rest ih =>
    intro h
    have hr : ∀ nh ∈ r.nextHops, nh.ifName ≠ none := h r (by simp)
    have hrest : ∀ r2 ∈ rest, ∀ nh ∈ r2.nextHops, nh.ifName ≠ none :=
      fun r2 h2 => h r2 (by simp [h2])
    have hany : (r.nextHops.any fun nh => nh.ifName.isNone) = false := by
      rw [List.any_eq_false]
      intro nh hnh
      cases hif : nh.ifName with
      | none => exact absurd hif (hr nh hnh)
      | some a => simp [hif]
    have hfilt := filter_valid_eq_spec affected r.nextHops hr
    simp only [Fib.processUnicastRoutes, hany, Bool.false_eq_true, if_false]
    rw [ih hrest]
    simp only [hfilt, Fib.specUnicastKeep, Fib.specUnicastUpdates, Fib.specUnicastDeletes,
      List.filterMap_cons]
    by_cases hempty : Fib.specSurvivingNextHops affected r.nextHops = []
    · have hbest0 : Fib.getBestNextHopsUnicast ([] : List Fib.NextHopT) = [] := rfl
      simp [hempty, hbest0]
    · by_cases hbest : Fib.getBestNextHopsUnicast (Fib.specSurvivingNextHops affected r.nextHops) ≠ [] ∧
          Fib.getBestNextHopsUnicast (Fib.specSurvivingNextHops affected r.nextHops) ≠
            Fib.getBestNextHopsUnicast r.nextHops <;>
        simp [hempty, hbest]

theorem processMplsRoutes_eq (affected : List String) :
    ∀ routes : List Fib.MplsRoute,
      Fib.processMplsRoutes affected routes =
        (Fib.specMplsKeep affected routes,
         Fib.specMplsUpdates affected routes,
         Fib.specMplsDeletes affected routes) := by
  intro routes
  induction routes with
  | nil => rfl
  | cons r rest ih =>
    have hfilt := filter_mpls_eq_spec affected r.nextHops
    simp only [Fib.processMplsRoutes]
    rw [ih]
    simp only [hfilt, Fib.specMplsKeep, Fib.specMplsUpdates, Fib.specMplsDeletes,
      List.filterMap_cons]
    by_cases hempty : Fib.specSurvivingNextHops affected r.nextHops = []
    · have hbest0 : Fib.getBestNextHopsMpls ([] : List Fib.NextHopT) = [] := rfl
      simp [hempty, hbest0]
    · by_cases hbest : Fib.getBestNextHopsMpls (Fib.specSurvivingNextHops affected r.nextHops) ≠ [] ∧
          Fib.getBestNextHopsMpls (Fib.specSurvivingNextHops affected r.nextHops) ≠
            Fib.getBestNextHopsMpls r.nextHops <;>
        simp [hempty, hbest]

/-! ## Claim C4 -/

/-- C4 counterexample: a stored route whose single nexthop rides the
interface that just went down.  The surviving best-nexthop set (empty)
differs from the previous best set, yet `processInterfaceDb` emits no
update for the route — it emits only a delete — refuting the claimed
"update iff the best-nexthop set differs". -/
theorem C4_counterexample :
    (Fib.processInterfaceDb
        { routeDb :=
            { unicastRoutes :=
                [{ dest := { addr := [10, 0, 0, 0], plen := 24 },
                   nextHops := [{ ifName := some "eth0", addr := [1, 2, 3, 4], weight := 0 }],
                   doNotInstall := false }]
              mplsRoutes := [] }
          doNotInstallDb := []
          interfaceStatusDb := [("eth0", true)]
          dirtyRouteDb := false
          syncTimerScheduled := false
          syncTimerDelay := 0
          backoff := { initialMs := 8, maxMs := 4096, currentMs := 0 } }
        [("eth0", false)]).map
        (fun p => (p.2.unicastRoutesToUpdate, p.2.unicastRoutesToDelete)) =
      some ([], [{ addr := [10, 0, 0, 0], plen := 24 }]) ∧
    Fib.getBestNextHopsUnicast
        (Fib.specSurvivingNextHops ["eth0"]
          [{ ifName := some "eth0", addr := [1, 2, 3, 4], weight := 0 }]) ≠
      Fib.getBestNextHopsUnicast
        [{ ifName := some "eth0", addr := [1, 2, 3, 4], weight := 0 }] := by
  constructor
  · rfl
  · decide

/-- C4 (amended): `processInterfaceDb` removes exactly the nexthops
whose interface name is in the affected set (nexthops without an
interface name are always retained); it emits an update for a route iff
the surviving best-nexthop set is nonempty and differs from the
previous best-nexthop set; and when the surviving nexthop set is empty
it emits a delete for that destination/label and removes the route from
the in-memory route DB. -/
theorem C4_amended_interface_db_filtering :
    ∀ (st : Fib.FibState) (interfaces : List (String × Bool)) st' delta,
      Fib.processInterfaceDb st interfaces = some (st', delta) →
      delta.unicastRoutesToUpdate =
        Fib.specUnicastUpdates (Fib.computeAffected st.interfaceStatusDb interfaces).2
          st.routeDb.unicastRoutes ∧
      delta.unicastRoutesToDelete =
        Fib.specUnicastDeletes (Fib.computeAffected st.interfaceStatusDb interfaces).2
          st.routeDb.unicastRoutes ∧
      st'.routeDb.unicastRoutes =
        Fib.specUnicastKeep (Fib.computeAffected st.interfaceStatusDb interfaces).2
          st.routeDb.unicastRoutes ∧
      delta.mplsRoutesToUpdate =
        Fib.specMplsUpdates (Fib.computeAffected st.interfaceStatusDb interfaces).2
          st.routeDb.mplsRoutes ∧
      delta.mplsRoutesToDelete =
        Fib.specMplsDeletes (Fib.computeAffected st.interfaceStatusDb interfaces).2
          st.routeDb.mplsRoutes ∧
      st'.routeDb.mplsRoutes =
        Fib.specMplsKeep (Fib.computeAffected st.interfaceStatusDb interfaces).2
          st.routeDb.mplsRoutes := by
  intro st interfaces st' delta h
  unfold Fib.processInterfaceDb at h
  dsimp only at h
  split at h
  · simp at h
  · rename_i uKeep uUpd uDel heq
    have hnn := processUnicastRoutes_noNone _ _ _ heq
    rw [processUnicastRoutes_eq _ _ hnn] at heq
    simp only [Option.some.injEq, Prod.mk.injEq] at heq
    obtain ⟨hk, hu, hd⟩ := heq
    rw [processMplsRoutes_eq] at h
    simp only [Option.some.injEq, Prod.mk.injEq] at h
    obtain ⟨hst, hdelta⟩ := h
    subst hst hdelta
    subst hk hu hd
    exact ⟨rfl, rfl, rfl, rfl, rfl, rfl⟩

/-- C4 witness: the spec §8 scenario — a route with nexthops via eth0
and eth1; eth0 goes down; an update carrying best path via eth1 is
emitted, nothing is deleted and the route survives with only the eth1
nexthop. -/
theorem C4_witness :
    ∃ st' delta,
      Fib.processInterfaceDb c4State [("eth0", false)] = some (st', delta) ∧
      delta.unicastRoutesToUpdate =
        [{ dest := { addr := [10, 0, 0, 0], plen := 24 },
           nextHops := [{ ifName := some "eth1", addr := [5, 6, 7, 8], weight := 0 }],
           doNotInstall := false }] ∧
      delta.unicastRoutesToDelete = [] ∧
      st'.routeDb.unicastRoutes =
        [{ dest := { addr := [10, 0, 0, 0], plen := 24 },
           nextHops := [{ ifName := some "eth1", addr := [5, 6, 7, 8], weight := 0 }],
           doNotInstall := false }] := by
  obtain ⟨st', delta, h⟩ :
      ∃ st' delta, Fib.processInterfaceDb c4State [("eth0", false)] = some (st', delta) :=
    ⟨_, _, rfl⟩
  have hc := C4_amended_interface_db_filtering c4State [("eth0", false)] st' delta h
  refine ⟨st', delta, h, ?_, ?_, ?_⟩
  · rw [hc.1]
    rfl
  · rw [hc.2.1]
    rfl
  · rw [hc.2.2.1]
    rfl

/-! ## Helper lemmas: interface status tracking -/

theorem assocLookup_set_ne {α : Type} (k k2 : String) (v : α) (h : k2 ≠ k) :
    ∀ m : List (String × α), assocLookup (assocSet m k v) k2 = assocLookup m k2 := by
  have hkk2 : (k == k2) = false := beq_eq_false_iff_ne.mpr (fun e => h e.symm)
  intro m
  induction m with
  | nil => simp [assocSet, assocLookup, List.find?, hkk2]
  | cons p rest ih =>
    obtain ⟨k0, v0⟩ := p
    by_cases hk0 : (k0 == k) = true
    · have hk0eq : k0 = k := by simpa using hk0
      subst hk0eq
      simp [assocSet, hk0, assocLookup, List.find?, hkk2]
    · have hk0f : (k0 == k) = false := by simpa using hk0
      simp only [assocSet, hk0f, Bool.false_eq_true, if_false]
      by_cases hk02 : (k0 == k2) = true
      · simp [assocLookup, List.find?, hk02]
      · have hk02f : (k0 == k2) = false := by simpa using hk02
        simp only [assocLookup, List.find?, hk02f]
        exact ih

theorem computeAffected_not_mem :
    ∀ (interfaces : List (String × Bool)) (statusDb : List (String × Bool)) (name : String),
      name ∉ interfaces.map Prod.fst →
      name ∉ (Fib.computeAffected statusDb interfaces).2 := by
  intro interfaces
  induction interfaces with
  | nil =>
    intro statusDb name _
    simp [Fib.computeAffected]
  | cons p rest ih =>
    intro statusDb name h
    obtain ⟨n, up⟩ := p
    simp only [List.map_cons, List.mem_cons, not_or] at h
    simp only [Fib.computeAffected]
    intro hmem
    rw [List.mem_append] at hmem
    rcases hmem with h1 | h2
    · split at h1
      · simp only [List.mem_singleton] at h1
        exact h.1 h1
      · simp at h1
    · exact ih _ name h.2 h2

theorem computeAffected_first_seen :
    ∀ (interfaces : List (String × Bool)) (statusDb : List (String × Bool)) (name : String),
      (interfaces.map Prod.fst).Nodup →
      assocLookup statusDb name = none →
      name ∉ (Fib.computeAffected statusDb interfaces).2 := by
  intro interfaces
  induction interfaces with
  | nil =>
    intro statusDb name _ _
    simp [Fib.computeAffected]
  | cons p rest ih =>
    intro statusDb name hnodup hlook
    obtain ⟨n, up⟩ := p
    simp only [List.map_cons, List.nodup_cons] at hnodup
    simp only [Fib.computeAffected]
    intro hmem
    rw [List.mem_append] at hmem
    rcases hmem with h1 | h2
    · split at h1
      · rename_i hcond
        simp only [List.mem_singleton] at h1
        subst h1
        rw [hlook] at hcond
        simp at hcond
      · simp at h1
    · by_cases hn : name = n
      · subst hn
        exact computeAffected_not_mem rest _ name hnodup.1 h2
      · have hlook2 : assocLookup (assocSet statusDb n up) name = none := by
          rw [assocLookup_set_ne n name up hn]
          exact hlook
        exact ih _ name hnodup.2 hlook2 h2

theorem computeAffected_nil_empty (interfaces : List (String × Bool))
    (h : (interfaces.map Prod.fst).Nodup) :
    (Fib.computeAffected [] interfaces).2 = [] := by
  rw [List.eq_nil_iff_forall_not_mem]
  intro name
  exact computeAffected_first_seen interfaces [] name h rfl

theorem specNexthopSurvives_nil (nh : Fib.NextHopT) :
    Fib.specNexthopSurvives [] nh = true := by
  unfold Fib.specNexthopSurvives
  cases nh.ifName <;> simp

theorem specSurvivingNextHops_nil (nhs : List Fib.NextHopT) :
    Fib.specSurvivingNextHops [] nhs = nhs := by
  unfold Fib.specSurvivingNextHops
  rw [List.filter_eq_self]
  intro nh _
  exact specNexthopSurvives_nil nh

theorem specUnicastKeep_nil (routes : List Fib.UnicastRoute)
    (h : ∀ r ∈ routes, r.nextHops ≠ []) :
    Fib.specUnicastKeep [] routes = routes := by
  unfold Fib.specUnicastKeep
  apply filterMap_some_of_mem
  intro r hr
  rw [specSurvivingNextHops_nil, if_neg (h r hr)]

theorem specUnicastUpdates_nil (routes : List Fib.UnicastRoute) :
    Fib.specUnicastUpdates [] routes = [] := by
  unfold Fib.specUnicastUpdates
  apply filterMap_none_of_mem
  intro r _
  rw [specSurvivingNextHops_nil]
  simp

theorem specUnicastDeletes_nil (routes : List Fib.UnicastRoute)
    (h : ∀ r ∈ routes, r.nextHops ≠ []) :
    Fib.specUnicastDeletes [] routes = [] := by
  unfold Fib.specUnicastDeletes
  apply filterMap_none_of_mem
  intro r hr
  rw [specSurvivingNextHops_nil, if_neg (h r hr)]

theorem specMplsKeep_nil (routes : List Fib.MplsRoute)
    (h : ∀ r ∈ routes, r.nextHops ≠ []) :
    Fib.specMplsKeep [] routes = routes := by
  unfold Fib.specMplsKeep
  apply filterMap_some_of_mem
  intro r hr
  rw [specSurvivingNextHops_nil, if_neg (h r hr)]

theorem specMplsUpdates_nil (routes : List Fib.MplsRoute) :
    Fib.specMplsUpdates [] routes = [] := by
  unfold Fib.specMplsUpdates
  apply filterMap_none_of_mem
  intro r _
  rw [specSurvivingNextHops_nil]
  simp

theorem specMplsDeletes_nil (routes : List Fib.MplsRoute)
    (h : ∀ r ∈ routes, r.nextHops ≠ []) :
    Fib.specMplsDeletes [] routes = [] := by
  unfold Fib.specMplsDeletes
  apply filterMap_none_of_mem
  intro r hr
  rw [specSurvivingNextHops_nil, if_neg (h r hr)]

/-- The characterization of `processInterfaceDb`, shared by the claims
about interface-driven filtering. -/
theorem processInterfaceDb_spec :
    ∀ (st : Fib.FibState) (interfaces : List (String × Bool)) st' delta,
      Fib.processInterfaceDb st interfaces = some (st', delta) →
      delta.unicastRoutesToUpdate =
        Fib.specUnicastUpdates (Fib.computeAffected st.interfaceStatusDb interfaces).2
          st.routeDb.unicastRoutes ∧
      delta.unicastRoutesToDelete =
        Fib.specUnicastDeletes (Fib.computeAffected st.interfaceStatusDb interfaces).2
          st.routeDb.unicastRoutes ∧
      st'.routeDb.unicastRoutes =
        Fib.specUnicastKeep (Fib.computeAffected st.interfaceStatusDb interfaces).2
          st.routeDb.unicastRoutes ∧
      delta.mplsRoutesToUpdate =
        Fib.specMplsUpdates (Fib.computeAffected st.interfaceStatusDb interfaces).2
          st.routeDb.mplsRoutes ∧
      delta.mplsRoutesToDelete =
        Fib.specMplsDeletes (Fib.computeAffected st.interfaceStatusDb interfaces).2
          st.routeDb.mplsRoutes ∧
      st'.routeDb.mplsRoutes =
        Fib.specMplsKeep (Fib.computeAffected st.interfaceStatusDb interfaces).2
          st.routeDb.mplsRoutes := by
  intro st interfaces st' delta h
  unfold Fib.processInterfaceDb at h
  dsimp only at h
  split at h
  · simp at h
  · rename_i uKeep uUpd uDel heq
    have hnn := processUnicastRoutes_noNone _ _ _ heq
    rw [processUnicastRoutes_eq _ _ hnn] at heq
    simp only [Option.some.injEq, Prod.mk.injEq] at heq
    obtain ⟨hk, hu, hd⟩ := heq
    rw [processMplsRoutes_eq] at h
    simp only [Option.some.injEq, Prod.mk.injEq] at h
    obtain ⟨hst, hdelta⟩ := h
    subst hst hdelta
    subst hk hu hd
    exact ⟨rfl, rfl, rfl, rfl, rfl, rfl⟩

/-! ## Claim C9 -/

/-- C9: an interface name never seen in a previous publication has
`was_up = false` (the lookup default), so it can never enter the
affected set on its first report; hence the first `InterfaceDatabase`
publication after start (empty status DB) drops no nexthop: the route
DB is unchanged and the emitted delta is empty. -/
theorem C9_first_report_never_affects :
    (∀ (interfaces statusDb : List (String × Bool)) (name : String),
      (interfaces.map Prod.fst).Nodup →
      assocLookup statusDb name = none →
      name ∉ (Fib.computeAffected statusDb interfaces).2) ∧
    (∀ (st : Fib.FibState) (interfaces : List (String × Bool)) st' delta,
      st.interfaceStatusDb = [] →
      (interfaces.map Prod.fst).Nodup →
      (∀ r ∈ st.routeDb.unicastRoutes, r.nextHops ≠ []) →
      (∀ r ∈ st.routeDb.mplsRoutes, r.nextHops ≠ []) →
      Fib.processInterfaceDb st interfaces = some (st', delta) →
      st'.routeDb = st.routeDb ∧
      delta.unicastRoutesToUpdate = [] ∧ delta.unicastRoutesToDelete = [] ∧
      delta.mplsRoutesToUpdate = [] ∧ delta.mplsRoutesToDelete = []) := by
  constructor
  · intro interfaces statusDb name hnodup hlook
    exact computeAffected_first_seen interfaces statusDb name hnodup hlook
  · intro st interfaces st' delta hstatus hnodup huni hmpls h
    have hspec := processInterfaceDb_spec st interfaces st' delta h
    have haff : (Fib.computeAffected st.interfaceStatusDb interfaces).2 = [] := by
      rw [hstatus]
      exact computeAffected_nil_empty interfaces hnodup
    rw [haff] at hspec
    obtain ⟨h1, h2, h3, h4, h5, h6⟩ := hspec
    refine ⟨?_, ?_, ?_, ?_, ?_⟩
    · have hu : st'.routeDb.unicastRoutes = st.routeDb.unicastRoutes := by
        rw [h3, specUnicastKeep_nil _ huni]
      have hm : st'.routeDb.mplsRoutes = st.routeDb.mplsRoutes := by
        rw [h6, specMplsKeep_nil _ hmpls]
      cases hdb : st'.routeDb with
      | mk u m =>
        rw [hdb] at hu hm
        simp only at hu hm
        subst hu hm
        rfl
    · rw [h1, specUnicastUpdates_nil]
    · rw [h2, specUnicastDeletes_nil _ huni]
    · rw [h4, specMplsUpdates_nil]
    · rw [h5, specMplsDeletes_nil _ hmpls]

/-- C9 witness: with an empty status DB, the publication
`[("eth0", true), ("eth1", false)]` (eth1 reported down on first
sight) leaves the stored route untouched and emits an empty delta; and
`"eth1"` is not in the affected set. -/
theorem C9_witness :
    ("eth1" ∉ (Fib.computeAffected [("eth0", true)] [("eth1", false)]).2) ∧
    (∃ st' delta,
      Fib.processInterfaceDb
          { routeDb :=
              { unicastRoutes :=
                  [{ dest := { addr := [10, 0, 0, 0], plen := 24 },
                     nextHops := [{ ifName := some "eth1", addr := [5, 6, 7, 8], weight := 0 }],
                     doNotInstall := false }]
                mplsRoutes := [{ topLabel := 100, nextHops := [{ ifName := none, addr := [], weight := 0 }] }] }
            doNotInstallDb := []
            interfaceStatusDb := []
            dirtyRouteDb := false
            syncTimerScheduled := false
            syncTimerDelay := 0
            backoff := { initialMs := 8, maxMs := 4096, currentMs := 0 } }
          [("eth0", true), ("eth1", false)] = some (st', delta) ∧
      st'.routeDb =
        { unicastRoutes :=
            [{ dest := { addr := [10, 0, 0, 0], plen := 24 },
               nextHops := [{ ifName := some "eth1", addr := [5, 6, 7, 8], weight := 0 }],
               doNotInstall := false }]
          mplsRoutes := [{ topLabel := 100, nextHops := [{ ifName := none, addr := [], weight := 0 }] }] } ∧
      delta.unicastRoutesToUpdate = [] ∧ delta.unicastRoutesToDelete = [] ∧
      delta.mplsRoutesToUpdate = [] ∧ delta.mplsRoutesToDelete = []) := by
  constructor
  · exact C9_first_report_never_affects.1 [("eth1", false)] [("eth0", true)] "eth1"
      (by simp) rfl
  · obtain ⟨st', delta, h⟩ :
        ∃ st' delta,
          Fib.processInterfaceDb
              { routeDb :=
                  { unicastRoutes :=
                      [{ dest := { addr := [10, 0, 0, 0], plen := 24 },
                         nextHops := [{ ifName := some "eth1", addr := [5, 6, 7, 8], weight := 0 }],
                         doNotInstall := false }]
                    mplsRoutes := [{ topLabel := 100, nextHops := [{ ifName := none, addr := [], weight := 0 }] }] }
                doNotInstallDb := []
                interfaceStatusDb := []
                dirtyRouteDb := false
                syncTimerScheduled := false
                syncTimerDelay := 0
                backoff := { initialMs := 8, maxMs := 4096, currentMs := 0 } }
              [("eth0", true), ("eth1", false)] = some (st', delta) := ⟨_, _, rfl⟩
    have hc := C9_first_report_never_affects.2 _ _ st' delta rfl (by simp)
      (by intro r hr; simp at hr; subst hr; simp) (by intro r hr; simp at hr; subst hr; simp) h
    exact ⟨st', delta, h, hc.1, hc.2.1, hc.2.2.1, hc.2.2.2.1, hc.2.2.2.2⟩

/-! ## Claim C5 -/

/-- C5: on the full-sync timer path (non-dryrun), a failed
`syncRouteDb` leaves the dirty flag set, records an error in the
backoff, and reschedules the timer after
`getTimeRemainingUntilRetry()`, which is at most `backoff.max = 4096`
ms; a successful `syncRouteDb` clears the dirty flag and records
success. -/
theorem C5_sync_timer_backoff :
    ∀ (st : Fib.FibState) (rpcOk : Bool),
      st.backoff.maxMs = 4096 →
      (rpcOk = false →
        (Fib.fireSyncRoutesTimer false rpcOk st).dirtyRouteDb = true ∧
        (Fib.fireSyncRoutesTimer false rpcOk st).backoff = st.backoff.reportError ∧
        (Fib.fireSyncRoutesTimer false rpcOk st).syncTimerScheduled = true ∧
        (Fib.fireSyncRoutesTimer false rpcOk st).syncTimerDelay =
          st.backoff.reportError.getTimeRemainingUntilRetry ∧
        (Fib.fireSyncRoutesTimer false rpcOk st).syncTimerDelay ≤ 4096) ∧
      (rpcOk = true →
        (Fib.fireSyncRoutesTimer false rpcOk st).dirtyRouteDb = false ∧
        (Fib.fireSyncRoutesTimer false rpcOk st).backoff = st.backoff.reportSuccess ∧
        (Fib.fireSyncRoutesTimer false rpcOk st).syncTimerScheduled = false) := by
  intro st rpcOk hmax
  constructor
  · intro h
    subst h
    refine ⟨rfl, rfl, rfl, rfl, ?_⟩
    show (st.backoff.reportError).getTimeRemainingUntilRetry ≤ 4096
    unfold ExpBackoff.reportError ExpBackoff.getTimeRemainingUntilRetry
    dsimp only
    rw [hmax]
    exact Nat.min_le_right _ _
  · intro h
    subst h
    exact ⟨rfl, rfl, rfl⟩

/-- C5 witness: the timer callback evaluated on a concrete state with
backoff `(8, 4096)`, for a failing and for a succeeding sync. -/
theorem C5_witness :
    ((Fib.fireSyncRoutesTimer false false fibBase).dirtyRouteDb = true ∧
      (Fib.fireSyncRoutesTimer false false fibBase).backoff =
        fibBase.backoff.reportError ∧
      (Fib.fireSyncRoutesTimer false false fibBase).syncTimerScheduled = true ∧
      (Fib.fireSyncRoutesTimer false false fibBase).syncTimerDelay =
        fibBase.backoff.reportError.getTimeRemainingUntilRetry ∧
      (Fib.fireSyncRoutesTimer false false fibBase).syncTimerDelay ≤ 4096) ∧
    ((Fib.fireSyncRoutesTimer false true fibBase).dirtyRouteDb = false ∧
      (Fib.fireSyncRoutesTimer false true fibBase).backoff =
        fibBase.backoff.reportSuccess ∧
      (Fib.fireSyncRoutesTimer false true fibBase).syncTimerScheduled = false) :=
  ⟨(C5_sync_timer_backoff fibBase false rfl).1 rfl,
   (C5_sync_timer_backoff fibBase true rfl).2 rfl⟩

/-! ## Claim C6 -/

/-- The agent RPCs of the delta path are ranked strictly increasingly:
deletes always precede adds, unicast before MPLS. -/
theorem updateRoutesCalls_rank_sorted (sr : Bool) (delta : Fib.RouteDatabaseDelta) :
    List.Pairwise (· < ·) ((Fib.updateRoutesCalls sr delta).map Fib.rpcRank) := by
  unfold Fib.updateRoutesCalls
  split <;> split <;> split <;> split <;>
    simp [Fib.rpcRank, List.pairwise_cons]

/-- C6: in non-dryrun `updateRoutes`, a scheduled full-sync timer
suppresses all delta RPCs; otherwise a set dirty flag suppresses the
delta RPCs and schedules an immediate full sync; otherwise the RPCs are
issued with every delete preceding the corresponding add
(delete-unicast, add-unicast, then — with segment routing —
delete-MPLS, add-MPLS). -/
theorem C6_update_routes_discipline :
    ∀ (sr : Bool) (failAt : Option Nat) (delta : Fib.RouteDatabaseDelta)
      (st : Fib.FibState),
      (st.syncTimerScheduled = true →
        Fib.updateRoutes false sr failAt delta st = (st, [])) ∧
      (st.syncTimerScheduled = false → st.dirtyRouteDb = true →
        Fib.updateRoutes false sr failAt delta st =
          ({ st with syncTimerScheduled := true, syncTimerDelay := 0 }, [])) ∧
      (st.syncTimerScheduled = false → st.dirtyRouteDb = false →
        List.Pairwise (· < ·)
          ((Fib.updateRoutes false sr failAt delta st).2.map Fib.rpcRank) ∧
        (failAt = none →
          (Fib.updateRoutes false sr failAt delta st).2 =
            Fib.updateRoutesCalls sr delta)) := by
  intro sr failAt delta st
  refine ⟨?_, ?_, ?_⟩
  · intro hs
    unfold Fib.updateRoutes
    simp [hs]
  · intro hs hd
    unfold Fib.updateRoutes Fib.syncRouteDbDebounced
    simp [hs, hd]
  · intro hs hd
    constructor
    · unfold Fib.updateRoutes
      simp only [hs, hd, Bool.false_eq_true, if_false]
      cases failAt with
      | none => exact updateRoutesCalls_rank_sorted sr delta
      | some k =>
        by_cases hk : k < (Fib.updateRoutesCalls sr delta).length
        · simp only [hk, if_pos]
          rw [List.map_take]
          exact (updateRoutesCalls_rank_sorted sr delta).sublist (List.take_sublist _ _)
        · simp only [hk, if_neg, if_false]
          exact updateRoutesCalls_rank_sorted sr delta
    · intro hf
      subst hf
      unfold Fib.updateRoutes
      simp [hs, hd]

/-- C6 witness: concrete states exercising all three branches with a
nonempty delta — timer scheduled (no RPC), dirty (no RPC, immediate
sync scheduled), clean (all four RPCs, deletes before adds). -/
theorem C6_witness :
    (Fib.updateRoutes false true none deltaBase
        { fibBase with syncTimerScheduled := true } =
      ({ fibBase with syncTimerScheduled := true }, [])) ∧
    (Fib.updateRoutes false true none deltaBase { fibBase with dirtyRouteDb := true } =
      ({ fibBase with
         dirtyRouteDb := true
         syncTimerScheduled := true
         syncTimerDelay := 0 }, [])) ∧
    List.Pairwise (· < ·)
      ((Fib.updateRoutes false true none deltaBase fibBase).2.map Fib.rpcRank) ∧
    (Fib.updateRoutes false true none deltaBase fibBase).2 =
      Fib.updateRoutesCalls true deltaBase := by
  refine ⟨?_, ?_, ?_, ?_⟩
  · exact (C6_update_routes_discipline true none deltaBase _).1 rfl
  · exact (C6_update_routes_discipline true none deltaBase _).2.1 rfl rfl
  · exact ((C6_update_routes_discipline true none deltaBase fibBase).2.2 rfl rfl).1
  · exact ((C6_update_routes_discipline true none deltaBase fibBase).2.2 rfl rfl).2 rfl

/-! ## Helper lemmas: persistent store -/

theorem assocErase_of_lookup_none {α : Type} (k : String) :
    ∀ m : List (String × α), assocLookup m k = none → assocErase m k = (m, false) := by
  intro m
  induction m with
  | nil => intro _; rfl
  | cons p rest ih =>
    intro h
    obtain ⟨k0, v0⟩ := p
    have hk0 : (k0 == k) = false := by
      by_contra hc
      simp only [Bool.not_eq_false] at hc
      simp [assocLookup, List.find?, hc] at h
    have hrest : assocLookup rest k = none := by
      simpa [assocLookup, List.find?, hk0] using h
    simp [assocErase, hk0, ih hrest]

/-! ## Claim C7 -/

/-- C7: `processRouteDb` partitions every route carrying the
`doNotInstall` marker off the snapshot before the delta is computed:
afterwards the in-memory route DB holds only installable routes, the
partitioned routes are exactly the `doNotInstall`-marked ones of the
snapshot (in order) and are exactly what `ROUTE_DB_UNINSTALLABLE_GET`
returns, and the delta is computed from the installable remainder. -/
theorem C7_do_not_install_partition :
    ∀ (newDb : Fib.RouteDatabase) (st : Fib.FibState),
      ((Fib.processRouteDb newDb st).1.routeDb.unicastRoutes.all
        (fun r => !r.doNotInstall)) = true ∧
      (Fib.processRouteDb newDb st).1.doNotInstallDb =
        newDb.unicastRoutes.filter (fun r => r.doNotInstall) ∧
      (Fib.processRouteDb newDb st).1.routeDb.unicastRoutes =
        newDb.unicastRoutes.filter (fun r => !r.doNotInstall) ∧
      Fib.processRequestMsg (Fib.processRouteDb newDb st).1
          Fib.FibCommand.ROUTE_DB_UNINSTALLABLE_GET =
        Fib.FibResponse.routeDb
          { unicastRoutes := (Fib.processRouteDb newDb st).1.doNotInstallDb
            mplsRoutes := [] } ∧
      (Fib.processRouteDb newDb st).2 =
        Fib.findDeltaRoutes
          { newDb with unicastRoutes := newDb.unicastRoutes.filter (fun r => !r.doNotInstall) }
          st.routeDb := by
  intro newDb st
  refine ⟨?_, rfl, rfl, rfl, rfl⟩
  rw [List.all_eq_true]
  intro r hr
  have hmem : r ∈ newDb.unicastRoutes.filter (fun r => !r.doNotInstall) := hr
  exact (List.mem_filter.mp hmem).2

/-! ## Claim C8 -/

/-- C8: in `PersistentStore::processRequestMsg`, a successful non-LOAD
request (STORE or ERASE) saves synchronously when no backoff is
configured, and otherwise arms the debounced save timer exactly when it
is not already scheduled; a LOAD request never saves and never touches
the timer, whatever its outcome. -/
theorem C8_store_save_scheduling :
    ∀ (st : PersistentStore.PStoreState) (req : PersistentStore.StoreRequest),
      (req.requestType = PersistentStore.StoreRequestType.LOAD →
        (PersistentStore.processRequestMsg st req).1.savesPerformed = st.savesPerformed ∧
        (PersistentStore.processRequestMsg st req).1.timerScheduled = st.timerScheduled ∧
        (PersistentStore.processRequestMsg st req).1.timerDelay = st.timerDelay) ∧
      ((PersistentStore.processRequestMsg st req).2.success = true →
        req.requestType ≠ PersistentStore.StoreRequestType.LOAD →
        (st.hasBackoff = false →
          (PersistentStore.processRequestMsg st req).1.savesPerformed =
            st.savesPerformed + 1 ∧
          (PersistentStore.processRequestMsg st req).1.timerScheduled =
            st.timerScheduled) ∧
        (st.hasBackoff = true →
          (PersistentStore.processRequestMsg st req).1.savesPerformed =
            st.savesPerformed ∧
          (PersistentStore.processRequestMsg st req).1.timerScheduled = true ∧
          (st.timerScheduled = false →
            (PersistentStore.processRequestMsg st req).1.timerDelay =
              st.backoff.getTimeRemainingUntilRetry) ∧
          (st.timerScheduled = true →
            (PersistentStore.processRequestMsg st req).1.timerDelay =
              st.timerDelay))) := by
  intro st req
  constructor
  · intro hload
    unfold PersistentStore.processRequestMsg
    rw [hload]
    cases hl : assocLookup st.keyVals req.key <;> simp
  · intro hsucc hne
    cases hrt : req.requestType with
    | LOAD => exact absurd hrt hne
    | STORE =>
      unfold PersistentStore.processRequestMsg
      rw [hrt]
      constructor
      · intro hb
        simp [hb]
      · intro hb
        by_cases hts : st.timerScheduled <;> simp [hb, hts]
    | ERASE =>
      unfold PersistentStore.processRequestMsg at hsucc ⊢
      rw [hrt] at hsucc ⊢
      dsimp only at hsucc ⊢
      rw [hsucc]
      constructor
      · intro hb
        simp [hb]
      · intro hb
        by_cases hts : st.timerScheduled <;> simp [hb, hts]
    | UNKNOWN =>
      unfold PersistentStore.processRequestMsg at hsucc
      rw [hrt] at hsucc
      simp at hsucc

/-- C8 witness: on a configured-backoff state with the timer idle, a
STORE arms the timer without saving synchronously; a LOAD on the same
state leaves everything untouched. -/
theorem C8_witness :
    ((PersistentStore.processRequestMsg pstoreBase
        { requestType := PersistentStore.StoreRequestType.LOAD, key := "node",
          data := "" }).1.savesPerformed = pstoreBase.savesPerformed ∧
      (PersistentStore.processRequestMsg pstoreBase
        { requestType := PersistentStore.StoreRequestType.LOAD, key := "node",
          data := "" }).1.timerScheduled = pstoreBase.timerScheduled ∧
      (PersistentStore.processRequestMsg pstoreBase
        { requestType := PersistentStore.StoreRequestType.LOAD, key := "node",
          data := "" }).1.timerDelay = pstoreBase.timerDelay) ∧
    ((PersistentStore.processRequestMsg pstoreBase
        { requestType := PersistentStore.StoreRequestType.STORE, key := "k",
          data := "v" }).1.savesPerformed = pstoreBase.savesPerformed ∧
      (PersistentStore.processRequestMsg pstoreBase
        { requestType := PersistentStore.StoreRequestType.STORE, key := "k",
          data := "v" }).1.timerScheduled = true ∧
      (PersistentStore.processRequestMsg pstoreBase
        { requestType := PersistentStore.StoreRequestType.STORE, key := "k",
          data := "v" }).1.timerDelay =
        pstoreBase.backoff.getTimeRemainingUntilRetry) := by
  constructor
  · exact (C8_store_save_scheduling pstoreBase
      { requestType := PersistentStore.StoreRequestType.LOAD, key := "node",
        data := "" }).1 rfl
  · have h := (C8_store_save_scheduling pstoreBase
      { requestType := PersistentStore.StoreRequestType.STORE, key := "k",
        data := "v" }).2 rfl (by simp) |>.2 rfl
    exact ⟨h.1, h.2.1, h.2.2.1 rfl⟩

/-! ## Claim C10 -/

/-- C10: an ERASE for a key absent from the in-memory map yields
`success = false`, leaves the map unchanged, and neither performs nor
schedules a save. -/
theorem C10_erase_absent_key :
    ∀ (st : PersistentStore.PStoreState) (key dat : String),
      assocLookup st.keyVals key = none →
      (PersistentStore.processRequestMsg st
          { requestType := PersistentStore.StoreRequestType.ERASE, key := key,
            data := dat }).2.success = false ∧
      (PersistentStore.processRequestMsg st
          { requestType := PersistentStore.StoreRequestType.ERASE, key := key,
            data := dat }).1.keyVals = st.keyVals ∧
      (PersistentStore.processRequestMsg st
          { requestType := PersistentStore.StoreRequestType.ERASE, key := key,
            data := dat }).1.savesPerformed = st.savesPerformed ∧
      (PersistentStore.processRequestMsg st
          { requestType := PersistentStore.StoreRequestType.ERASE, key := key,
            data := dat }).1.timerScheduled = st.timerScheduled ∧
      (PersistentStore.processRequestMsg st
          { requestType := PersistentStore.StoreRequestType.ERASE, key := key,
            data := dat }).1.timerDelay = st.timerDelay := by
  intro st key dat hlook
  have herase := assocErase_of_lookup_none key st.keyVals hlook
  unfold PersistentStore.processRequestMsg
  simp [herase]

/-- C10 witness: erasing the absent key `"b"` from a map holding only
`"node"` fails, changes nothing and schedules nothing. -/
theorem C10_witness :
    (PersistentStore.processRequestMsg pstoreBase
        { requestType := PersistentStore.StoreRequestType.ERASE, key := "b",
          data := "" }).2.success = false ∧
    (PersistentStore.processRequestMsg pstoreBase
        { requestType := PersistentStore.StoreRequestType.ERASE, key := "b",
          data := "" }).1.keyVals = pstoreBase.keyVals ∧
    (PersistentStore.processRequestMsg pstoreBase
        { requestType := PersistentStore.StoreRequestType.ERASE, key := "b",
          data := "" }).1.savesPerformed = pstoreBase.savesPerformed ∧
    (PersistentStore.processRequestMsg pstoreBase
        { requestType := PersistentStore.StoreRequestType.ERASE, key := "b",
          data := "" }).1.timerScheduled = pstoreBase.timerScheduled ∧
    (PersistentStore.processRequestMsg pstoreBase
        { requestType := PersistentStore.StoreRequestType.ERASE, key := "b",
          data := "" }).1.timerDelay = pstoreBase.timerDelay :=
  C10_erase_absent_key pstoreBase "b" "" rfl

end OpenR
